import Mathlib

/-!
Verification development for the xCatch uTools HTTP client SDK.

The definitions below are a shallow embedding of the Go sources:
  * `src/pkg/utools/client.go`  — transport, envelope unwrapping, retry driver
  * `src/pkg/utools/errors.go`  — `APIError` and the error classifier
  * the pagination file (`PageIterator`, `extractCursors`, `findCursorDeep`)

JSON values are modelled by an ordered tree (`Json`); `encoding/json`'s
byte-level behaviour is modelled by an executable parser (`jsonParse`) and
serializer (`Json.render`).  Machine integers (`time.Duration` is an int64
nanosecond count) are modelled as `Int` with explicit two's-complement
wrapping where Go overflows.
-/

namespace XCatch

/-- Ordered JSON tree.  Object fields keep document order; the model uses
first-occurrence lookup for duplicate keys (the modelled payloads never
contain duplicate keys).  Numbers are restricted to integers: every number
appearing in the modelled envelopes (`code`) is an integer, and a payload
containing a non-integer number simply falls outside the parser's domain. -/
inductive Json where
  | null : Json
  | bool (b : Bool) : Json
  | num (n : Int) : Json
  | str (s : String) : Json
  | arr (xs : List Json) : Json
  | obj (kvs : List (String × Json)) : Json
deriving Inhabited

/-- Whitespace per RFC 8259. -/
def isJsonWs (c : Char) : Bool :=
  c = ' ' ∨ c = '\t' ∨ c = '\n' ∨ c = '\r'

def skipWs : List Char → List Char
  | [] => []
  | c :: cs => if isJsonWs c then skipWs cs else c :: cs

/-- Decode the body of a JSON string literal (the opening quote already
consumed), returning the decoded characters and the rest of the input.
Handles the single-character escapes; `\uXXXX` escapes are outside the
modelled domain (no modelled payload uses them). -/
def parseStrChars : Nat → List Char → Option (List Char × List Char)
  | 0, _ => none
  | _, [] => none
  | fuel + 1, c :: rest =>
    if c = '"' then some ([], rest)
    else if c = '\\' then
      match rest with
      | [] => none
      | e :: rest2 =>
        let d : Option Char :=
          if e = '"' then some '"'
          else if e = '\\' then some '\\'
          else if e = '/' then some '/'
          else if e = 'n' then some '\n'
          else if e = 't' then some '\t'
          else if e = 'r' then some '\r'
          else if e = 'b' then some (Char.ofNat 8)
          else if e = 'f' then some (Char.ofNat 12)
          else none
        match d with
        | none => none
        | some dc =>
          match parseStrChars fuel rest2 with
          | none => none
          | some (s, r) => some (dc :: s, r)
    else
      match parseStrChars fuel rest with
      | none => none
      | some (s, r) => some (c :: s, r)

def digitsToNat (acc : Nat) : List Char → Nat
  | [] => acc
  | c :: cs => digitsToNat (acc * 10 + (c.toNat - '0'.toNat)) cs

/-- Parse an integer JSON number (optional leading minus). -/
def parseNum (cs : List Char) : Option (Json × List Char) :=
  let (neg, cs') := match cs with
    | '-' :: t => (true, t)
    | _ => (false, cs)
  let digits := cs'.takeWhile Char.isDigit
  let rest := cs'.dropWhile Char.isDigit
  if digits.isEmpty then none
  else
    let n : Int := Int.ofNat (digitsToNat 0 digits)
    some (.num (if neg then -n else n), rest)

def matchLit (lit : List Char) (cs : List Char) : Option (List Char) :=
  if cs.take lit.length = lit then some (cs.drop lit.length) else none

mutual

/-- Recursive-descent JSON value parser, fuel-indexed. -/
def parseVal : Nat → List Char → Option (Json × List Char)
  | 0, _ => none
  | fuel + 1, cs =>
    match skipWs cs with
    | [] => none
    | c :: rest =>
      if c = 'n' then
        (matchLit ['u', 'l', 'l'] rest).map (fun r => (.null, r))
      else if c = 't' then
        (matchLit ['r', 'u', 'e'] rest).map (fun r => (.bool true, r))
      else if c = 'f' then
        (matchLit ['a', 'l', 's', 'e'] rest).map (fun r => (.bool false, r))
      else if c = '"' then
        match parseStrChars (rest.length + 1) rest with
        | none => none
        | some (s, r) => some (.str (String.mk s), r)
      else if c = '[' then
        match skipWs rest with
        | ']' :: r2 => some (.arr [], r2)
        | r1 => match parseArrItems fuel r1 with
          | none => none
          | some (xs, r2) => some (.arr xs, r2)
      else if c = '\x7b' then
        match skipWs rest with
        | '\x7d' :: r2 => some (.obj [], r2)
        | r1 => match parseObjItems fuel r1 with
          | none => none
          | some (kvs, r2) => some (.obj kvs, r2)
      else if c = '-' ∨ c.isDigit then parseNum (c :: rest)
      else none

/-- Comma-separated array elements up to the closing bracket. -/
def parseArrItems : Nat → List Char → Option (List Json × List Char)
  | 0, _ => none
  | fuel + 1, cs =>
    match parseVal fuel cs with
    | none => none
    | some (v, rest) =>
      match skipWs rest with
      | ',' :: r2 =>
        match parseArrItems fuel r2 with
        | none => none
        | some (vs, r3) => some (v :: vs, r3)
      | ']' :: r2 => some ([v], r2)
      | _ => none

/-- Comma-separated `"key": value` members up to the closing brace. -/
def parseObjItems : Nat → List Char → Option (List (String × Json) × List Char)
  | 0, _ => none
  | fuel + 1, cs =>
    match skipWs cs with
    | '"' :: r1 =>
      match parseStrChars (r1.length + 1) r1 with
      | none => none
      | some (k, r2) =>
        match skipWs r2 with
        | ':' :: r3 =>
          match parseVal fuel r3 with
          | none => none
          | some (v, r4) =>
            match skipWs r4 with
            | ',' :: r5 =>
              match parseObjItems fuel r5 with
              | none => none
              | some (kvs, r6) => some ((String.mk k, v) :: kvs, r6)
            | '\x7d' :: r5 => some ([(String.mk k, v)], r5)
            | _ => none
        | _ => none
    | _ => none

end

/-- Model of `json.Unmarshal`'s syntactic stage: parse a whole document
(no trailing garbage allowed). -/
def jsonParse (s : String) : Option Json :=
  match parseVal (2 * s.length + 8) s.data with
  | none => none
  | some (j, rest) => if skipWs rest = [] then some j else none

/-- Escape one character for a JSON string literal. -/
def escChar (c : Char) : List Char :=
  if c = '"' then ['\\', '"']
  else if c = '\\' then ['\\', '\\']
  else if c = '\n' then ['\\', 'n']
  else if c = '\t' then ['\\', 't']
  else if c = '\r' then ['\\', 'r']
  else [c]

/-- Serialize a string to a JSON string literal. -/
def renderStr (s : String) : String :=
  String.mk ('"' :: (s.data.foldr (fun c acc => escChar c ++ acc) ['"']))

mutual

/-- Canonical serialization of a `Json` tree.  Stands in for the raw bytes a
`json.RawMessage` field retains: it agrees with them on everything the
client inspects (`data[0] == '"'` holds exactly for string values). -/
def Json.render : Json → String
  | .null => "null"
  | .bool true => "true"
  | .bool false => "false"
  | .num n => toString n
  | .str s => renderStr s
  | .arr xs => "[" ++ renderList xs ++ "]"
  | .obj kvs => "\x7b" ++ renderObj kvs ++ "\x7d"

def renderList : List Json → String
  | [] => ""
  | [x] => Json.render x
  | x :: y :: t => Json.render x ++ "," ++ renderList (y :: t)

def renderObj : List (String × Json) → String
  | [] => ""
  | [(k, v)] => renderStr k ++ ":" ++ Json.render v
  | (k, v) :: y :: t => renderStr k ++ ":" ++ Json.render v ++ "," ++ renderObj (y :: t)

end

/-- First-occurrence field lookup in an object; `none` on any non-object. -/
def getField (j : Json) (key : String) : Option Json :=
  match j with
  | .obj kvs => (kvs.find? (fun kv => kv.1 = key)).map (fun kv => kv.2)
  | _ => none

/-- `client.go` line 397 `Truncate`: shorten `s` to `maxLen` characters,
appending `"..."` when it was longer.  Go indexes bytes; the model indexes
characters, which agree on the ASCII payloads modelled here. -/
def Truncate (s : String) (maxLen : Nat) : String :=
  if s.length ≤ maxLen then s else (String.mk (s.data.take maxLen)) ++ "..."

/-- `errors.go` lines 6-11: the typed API error. -/
structure APIError where
  StatusCode : Int
  Code : Int
  Message : String
  RawBody : String
deriving DecidableEq, Repr, Inhabited

/-- `errors.go` line 13 `Error()`. -/
def APIError.errorString (e : APIError) : String :=
  "utools: HTTP " ++ toString e.StatusCode ++ ", code=" ++ toString e.Code
    ++ ", message=" ++ e.Message

/-- `errors.go` line 18 `IsRateLimited`. -/
def APIError.IsRateLimited (e : APIError) : Bool :=
  e.Code = 88 ∨ e.StatusCode = 429

/-- `errors.go` line 23 `IsForbidden`. -/
def APIError.IsForbidden (e : APIError) : Bool :=
  e.StatusCode = 403

/-- `errors.go` line 28 `IsUnauthorized`. -/
def APIError.IsUnauthorized (e : APIError) : Bool :=
  e.StatusCode = 401

/-- `errors.go` line 33 `IsRetryable`. -/
def APIError.IsRetryable (e : APIError) : Bool :=
  e.IsRateLimited ∨ e.IsForbidden

/-- A Go `error` value as the client can observe it: the `errors.Is` /
`errors.As` chains walk the `wrapped` spine (`fmt.Errorf` with `%w`). -/
inductive GoError where
  | apiError (e : APIError)
  | ctxCanceled
  | ctxDeadline
  | netErr (timeout : Bool) (msg : String)
  | decodeErr (msg : String)
  | wrapped (msg : String) (inner : GoError)
  | simple (msg : String)
deriving DecidableEq, Repr, Inhabited

/-- The `Error()` text of the value. -/
def GoError.message : GoError → String
  | .apiError e => e.errorString
  | .ctxCanceled => "context canceled"
  | .ctxDeadline => "context deadline exceeded"
  | .netErr _ m => m
  | .decodeErr m => m
  | .wrapped m _ => m
  | .simple m => m

/-- `errors.Is(err, context.Canceled) || errors.Is(err, context.DeadlineExceeded)`. -/
def GoError.isCtxErr : GoError → Bool
  | .ctxCanceled => true
  | .ctxDeadline => true
  | .wrapped _ e => e.isCtxErr
  | _ => false

/-- `errors.As(err, &apiErr)`: first `*APIError` in the unwrap chain. -/
def GoError.asAPIError : GoError → Option APIError
  | .apiError e => some e
  | .wrapped _ e => e.asAPIError
  | _ => none

/-- `errors.As(err, &netErr)`: first `net.Error` in the chain, reduced to its
`Timeout()` bit. -/
def GoError.asNetTimeout : GoError → Option Bool
  | .netErr t _ => some t
  | .wrapped _ e => e.asNetTimeout
  | _ => none

/-- `client.go` lines 140-159 `isRetryableError` (the `err == nil` guard is
unrepresentable here: a `GoError` is always a non-nil error). -/
def isRetryableError (err : GoError) : Bool :=
  if err.isCtxErr then false
  else
    match err.asAPIError with
    | some apiErr => apiErr.IsRetryable
    | none =>
      match err.asNetTimeout with
      | some t => t
      | none => false

/-- Unmarshalling a JSON value into a Go `int` struct field: absent or
`null` leaves the zero value; a number decodes; any other shape makes
`json.Unmarshal` report an error (modelled as `none`). -/
def intField : Option Json → Option Int
  | none => some 0
  | some .null => some 0
  | some (.num n) => some n
  | some _ => none

/-- Unmarshalling into a Go `string` struct field (same conventions). -/
def strField : Option Json → Option String
  | none => some ""
  | some .null => some ""
  | some (.str s) => some s
  | some _ => none

/-- `client.go` lines 344-349: the response envelope struct.  `data` models
the `json.RawMessage` field: `none` when the field is absent (`len == 0` in
Go), `some v` when present — including an explicit `null` (whose raw bytes
are `"null"`, hence non-empty).  `result` mirrors the unused `Result` field. -/
structure Envelope where
  code : Int
  data : Option Json
  msg : String
  result : Option Json
deriving Inhabited

/-- `json.Unmarshal(body, &envelope)` on an already-parsed document.
Succeeds on an object (unknown fields ignored, typed fields as above) and on
`null` (which leaves the struct zeroed); errors on every other shape. -/
def unmarshalEnvelope (j : Json) : Option Envelope :=
  match j with
  | .null => some ⟨0, none, "", none⟩
  | .obj _ =>
    match intField (getField j "code"), strField (getField j "msg") with
    | some c, some m => some ⟨c, getField j "data", m, getField j "result"⟩
    | _, _ => none
  | _ => none

/-- `json.Unmarshal(body, &errResp)` for the non-2xx error struct
(`client.go` lines 322-326): fields `code`, `message`, `msg`. -/
def unmarshalErrResp (j : Json) : Option (Int × String × String) :=
  match j with
  | .null => some (0, "", "")
  | .obj _ =>
    match intField (getField j "code"), strField (getField j "message"),
        strField (getField j "msg") with
    | some c, some message, some msg => some (c, message, msg)
    | _, _, _ => none
  | _ => none

/-- `client.go` lines 316-338: build the `APIError` for a non-2xx status. -/
def buildNon2xxError (status : Int) (body : String) : APIError :=
  let base : APIError := ⟨status, 0, "", body⟩
  let withParsed :=
    match (jsonParse body).bind unmarshalErrResp with
    | some (c, message, msg) =>
      { base with Code := c, Message := if message ≠ "" then message else msg }
    | none => base
  if withParsed.Message = "" then { withParsed with Message := body } else withParsed

/-- The raw bytes `string(envelope.Data)` (`nil` renders as the empty
string), modelled through the canonical serialization. -/
def Envelope.rawData (env : Envelope) : String :=
  match env.data with
  | none => ""
  | some dj => dj.render

/-- `client.go` lines 250-386 `do`, after the transport step: interpret an
HTTP response `(status, body)`.  The typed result destination is `dec`
(`none` models `result == nil`), a function from the bytes handed to
`json.Unmarshal` to the decoded value or the decoder's error text —
exactly the rôle `json.Unmarshal(…, result)` plays for the destination.
Returns the decoded value, or the error the Go function returns. -/
def clientDo {α : Type} (status : Int) (body : String)
    (dec : Option (String → Except String α)) : Except GoError (Option α) :=
  if status < 200 ∨ 300 ≤ status then
    .error (.apiError (buildNon2xxError status body))
  else
    match dec with
    | none => .ok none
    | some d =>
      match (jsonParse body).bind unmarshalEnvelope with
      | some env =>
        if env.data.isSome ∨ env.code ≠ 0 then
          -- business-level failure: code != 0 and code != 1
          if env.code ≠ 0 ∧ env.code ≠ 1 then
            .error (.apiError ⟨status, env.code, env.msg, body⟩)
          else
            match env.data with
            | some (.str s) =>
              -- data starts with '"': double decode (lines 362-371)
              match d s with
              | .ok a => .ok (some a)
              | .error em =>
                .error (.wrapped
                  ("utools: unmarshal inner data: " ++ em ++ " (data: "
                    ++ Truncate s 500 ++ ")")
                  (.decodeErr em))
            | _ =>
              -- data used directly (lines 372-376)
              match d env.rawData with
              | .ok a => .ok (some a)
              | .error em =>
                .error (.wrapped
                  ("utools: unmarshal data field: " ++ em ++ " (data: "
                    ++ Truncate env.rawData 500 ++ ")")
                  (.decodeErr em))
        else
          -- no valid envelope: fall back to the whole body (lines 379-382)
          match d body with
          | .ok a => .ok (some a)
          | .error em =>
            .error (.wrapped
              ("utools: unmarshal response: " ++ em ++ " (body: "
                ++ Truncate body 500 ++ ")")
              (.decodeErr em))
      | none =>
        match d body with
        | .ok a => .ok (some a)
        | .error em =>
          .error (.wrapped
            ("utools: unmarshal response: " ++ em ++ " (body: "
              ++ Truncate body 500 ++ ")")
            (.decodeErr em))

/-- A generic-map result destination (`map[string]interface{}` or a similar
dynamic value): `json.Unmarshal` succeeds exactly on a JSON object. -/
def decGenericMap (s : String) : Except String Json :=
  match jsonParse s with
  | some (.obj kvs) => .ok (.obj kvs)
  | some _ => .error "json: cannot unmarshal value into map"
  | none => .error "invalid JSON"

/-- A slice result destination: `json.Unmarshal` succeeds exactly on a
JSON array. -/
def decSlice (s : String) : Except String Json :=
  match jsonParse s with
  | some (.arr xs) => .ok (.arr xs)
  | some _ => .error "json: cannot unmarshal value into slice"
  | none => .error "invalid JSON"

/-! ## Retry driver (`client.go` lines 70-101 `doWithRetry`) -/

/-- The loop of `doWithRetry` from loop counter `attempt` with
`maxRetries - attempt` further iterations allowed.  `outcomes n` is the
result of the `c.do` call made on attempt `n` (the per-attempt network and
decode nondeterminism).  Returns the Go function's return value together
with the number of `c.do` attempts performed.  The rate-limiter wait and
the backoff sleep are pure delays here (their early-exit paths fire only
when the caller's context is cancelled, which none of the modelled claims
involves). -/
def retryFrom {α : Type} (outcomes : Nat → Except GoError α) :
    Nat → Nat → Except GoError α × Nat
  | attempt, fuel =>
    match outcomes attempt with
    | .ok a => (.ok a, 1)
    | .error e =>
      if isRetryableError e then
        match fuel with
        | 0 => (.error e, 1)
        | f + 1 =>
          let r := retryFrom outcomes (attempt + 1) f
          (r.1, r.2 + 1)
      else (.error e, 1)
termination_by _ fuel => fuel

/-- `doWithRetry`: `for attempt := 0; attempt <= maxRetries; attempt++`.
`maxRetries` is a `Nat` because `config.Validate` replaces any negative
`MaxRetries` with the default before a client is constructed. -/
def doWithRetry {α : Type} (maxRetries : Nat) (outcomes : Nat → Except GoError α) :
    Except GoError α × Nat :=
  retryFrom outcomes 0 maxRetries

/-- Whether an attempt outcome is an error the classifier retries. -/
def retryableOutcome {α : Type} : Except GoError α → Bool
  | .ok _ => false
  | .error e => isRetryableError e

/-! ## Backoff (`client.go` lines 73-77) -/

/-- Two's-complement wrap-around of an `int64` computation. -/
def int64wrap (n : Int) : Int :=
  (n + 2 ^ 63) % 2 ^ 64 - 2 ^ 63

/-- Lines 73-77: `backoff := time.Duration(math.Pow(2, float64(attempt-1)))
* time.Second; if backoff > 30*time.Second { backoff = 30*time.Second }`,
in int64 nanoseconds.  `math.Pow(2, k)` is exact for these exponents, and
the float→`time.Duration` conversion is exact for `attempt - 1 ≤ 62`; the
multiplication by `time.Second` (`10^9`) then wraps around like any Go
`int64` product. -/
def backoffNs (attempt : Nat) : Int :=
  let pow : Int := int64wrap (2 ^ (attempt - 1))
  let backoff := int64wrap (pow * 1000000000)
  if backoff > 30 * 1000000000 then 30 * 1000000000 else backoff

/-! ## Cursor extraction (pagination file, `extractCursors` and
`findCursorDeep`) -/

/-- `gjson.Result.String()` for the result of a lookup: missing values and
`null` give `""`, scalars their literal text, objects/arrays their raw JSON. -/
def gjsonStr : Option Json → String
  | none => ""
  | some .null => ""
  | some (.str s) => s
  | some (.num n) => toString n
  | some (.bool true) => "true"
  | some (.bool false) => "false"
  | some (.arr xs) => Json.render (.arr xs)
  | some (.obj kvs) => Json.render (.obj kvs)

/-- `gjson.Get(jsonStr, "..entries")`: a gjson path that begins with the
`..` prefix switches gjson into its JSON-Lines mode — the document is read
as an array of lines and the remaining path `entries` is applied to that
array.  A plain (non-index, non-`#`) key never selects anything from an
array, so for every single JSON document the lookup yields no result; the
pagination payloads handled by the client are always single documents. -/
def getDotDotEntries (_j : Json) : Option Json :=
  none

/-- `Result.ForEach` iteration order: array elements, object values, and a
scalar is passed to the iterator once as itself. -/
def forEachValues : Json → List Json
  | .arr xs => xs
  | .obj kvs => kvs.map (fun kv => kv.2)
  | j => [j]

/-- Body of the inner `ForEach` of strategy 1 (lines 121-138): read the
cursor type and value from the item, each falling back to the
`content.`-prefixed location, then assign — unconditionally — the matching
direction. -/
def cursorItemScan (st : String × String) (item : Json) : String × String :=
  let ct0 := gjsonStr (getField item "cursorType")
  let ct := if ct0 = "" then
      gjsonStr ((getField item "content").bind (fun c => getField c "cursorType"))
    else ct0
  let v0 := gjsonStr (getField item "value")
  let v := if v0 = "" then
      gjsonStr ((getField item "content").bind (fun c => getField c "value"))
    else v0
  if ct = "Bottom" then (v, st.2)
  else if ct = "Top" then (st.1, v)
  else st

mutual

/-- `findCursorDeep` (recursive deep scan, strategy 3): returns the updated
`(next, prev)` state together with the `bool` the Go function returns
(`true` to continue the enclosing iteration). -/
def findCursorDeep (j : Json) (st : String × String) : (String × String) × Bool :=
  match j with
  | .obj kvs =>
    let ct := gjsonStr (getField (.obj kvs) "cursorType")
    let v := gjsonStr (getField (.obj kvs) "value")
    let n1 := if ct = "Bottom" ∧ v ≠ "" ∧ st.1 = "" then v else st.1
    let p1 := if ct = "Top" ∧ v ≠ "" ∧ st.2 = "" then v else st.2
    let st2 := scanKvs kvs (n1, p1)
    (st2, decide (st2.1 = "" ∨ st2.2 = ""))
  | .arr xs =>
    let st2 := scanList xs st
    (st2, decide (st2.1 = "" ∨ st2.2 = ""))
  | _ => (st, true)

/-- `value.ForEach(... findCursorDeep ...)` over object members: stop as
soon as a callback returns `false`. -/
def scanKvs : List (String × Json) → (String × String) → String × String
  | [], st => st
  | (_, c) :: cs, st =>
    let r := findCursorDeep c st
    if r.2 then scanKvs cs r.1 else r.1

/-- The same iteration over array elements. -/
def scanList : List Json → (String × String) → String × String
  | [], st => st
  | c :: cs, st =>
    let r := findCursorDeep c st
    if r.2 then scanList cs r.1 else r.1

end

/-- `gjson.Parse(jsonStr).ForEach(func(key, value) { return
findCursorDeep(value, &next, &prev) })`: iterate the root's immediate
values with the same early stop; a scalar root is passed once as itself. -/
def deepScanRoot (j : Json) (st : String × String) : String × String :=
  match j with
  | .obj kvs => scanKvs kvs st
  | .arr xs => scanList xs st
  | _ => (findCursorDeep j st).1

/-- `extractCursors` (pagination file lines 114-171), on an already-parsed
payload: the three layered strategies. -/
def extractCursors (j : Json) : String × String :=
  -- Strategy 1: ForEach over the `..entries` lookup (dead for single
  -- documents, see `getDotDotEntries`)
  let st1 :=
    match getDotDotEntries j with
    | some entries =>
      (forEachValues entries).foldl
        (fun st entry => (forEachValues entry).foldl cursorItemScan st) ("", "")
    | none => ("", "")
  -- Strategy 2: direct top-level fields
  let next :=
    if st1.1 = "" then
      let n := gjsonStr (getField j "cursor_bottom")
      let n := if n = "" then gjsonStr (getField j "next_cursor") else n
      if n = "" then gjsonStr (getField j "next_cursor_str") else n
    else st1.1
  let prev :=
    if st1.2 = "" then
      let p := gjsonStr (getField j "cursor_top")
      let p := if p = "" then gjsonStr (getField j "previous_cursor") else p
      if p = "" then gjsonStr (getField j "previous_cursor_str") else p
    else st1.2
  -- Strategy 3: deep search, only when next is still unset
  if next = "" then deepScanRoot j (next, prev) else (next, prev)

/-! ## Page iterator (pagination file lines 11-109) -/

/-- A Go `map[string]string` value: association list, insertion order,
at most one binding per key. -/
abbrev ParamMap := List (String × String)

/-- `m[k] = v` on a map value: replace an existing binding, else append. -/
def mapSet (m : ParamMap) (k v : String) : ParamMap :=
  if m.any (fun kv => kv.1 = k) then
    m.map (fun kv => if kv.1 = k then (k, v) else kv)
  else m ++ [(k, v)]

/-- `PageResult` (lines 12-22), with the raw payload as parsed JSON. -/
structure PageResult where
  RawData : Json
  NextCursor : String
  PreviousCursor : String
deriving Inhabited

/-- `PageIterator` state (lines 25-33).  The client handle is not part of
the state; the fetch it performs is a parameter of `next`. -/
structure PageIterator where
  path : String
  baseParams : ParamMap
  nextCursor : String
  hasMore : Bool
  pageCount : Nat
  maxPages : Nat
deriving Inhabited

/-- `NewPageIterator` (lines 37-51). -/
def newPageIterator (path : String) (params : ParamMap) (maxPages : Nat) :
    PageIterator :=
  { path := path
    baseParams := params
    nextCursor := ""
    hasMore := true
    pageCount := 0
    maxPages := maxPages }

/-- The parameter map built for one request (lines 77-83): the base
parameters plus the current cursor when one is set. -/
def PageIterator.reqParams (it : PageIterator) : ParamMap :=
  if it.nextCursor ≠ "" then mapSet it.baseParams "cursor" it.nextCursor
  else it.baseParams

/-- Everything one `Next` call produces: the returned pair, the state the
iterator is left in, and whether a network fetch was performed. -/
structure NextOutcome where
  page : Option PageResult
  err : Option GoError
  it : PageIterator
  fetched : Bool

/-- `Next` (lines 66-109).  `fetch params` is the result of
`it.client.Get(ctx, it.path, params, &raw)` — the unwrapped envelope
payload, or the error the retry driver surfaced. -/
def PageIterator.next (it : PageIterator)
    (fetch : ParamMap → Except GoError Json) : NextOutcome :=
  if it.hasMore = false then
    ⟨none, none, it, false⟩
  else if it.maxPages > 0 ∧ it.pageCount ≥ it.maxPages then
    ⟨none, none, { it with hasMore := false }, false⟩
  else
    match fetch it.reqParams with
    | .error e =>
      ⟨none, some (.wrapped ("page iterator: " ++ e.message) e), it, true⟩
    | .ok raw =>
      let it1 := { it with pageCount := it.pageCount + 1 }
      let cursors := extractCursors raw
      let page := some (⟨raw, cursors.1, cursors.2⟩ : PageResult)
      if cursors.1 = "" ∨ cursors.1 = it.nextCursor then
        ⟨page, none, { it1 with hasMore := false }, true⟩
      else
        ⟨page, none, { it1 with nextCursor := cursors.1 }, true⟩

/-! ## Map aliasing (frame effect of `do`/`doRaw` and the page iterator)

To make "the caller's map is never mutated" a contentful statement, map
VALUES are separated from map REFERENCES: a heap is a list of map values,
a reference an index into it, and each Go statement that writes a map is
embedded as a write through the reference it targets.  The three programs
below mirror, statement by statement, every line in the sources that
writes any `map[string]string`:  `client.go` lines 253-259 (`do`, identical
to lines 164-168 of `doRaw`), and the pagination file lines 38-42
(`NewPageIterator`) and 77-83 (`Next`). -/

abbrev Heap := List ParamMap

/-- Read the map a reference designates. -/
def hget : Heap → Nat → ParamMap
  | [], _ => []
  | m :: _, 0 => m
  | _ :: t, r + 1 => hget t r

/-- Replace the map a reference designates. -/
def hsetMap : Heap → Nat → ParamMap → Heap
  | [], _, _ => []
  | _ :: t, 0, m => m :: t
  | x :: t, r + 1, m => x :: hsetMap t r m

/-- A Go `m[k] = v` statement through reference `r`. -/
def hwrite (h : Heap) (r : Nat) (k v : String) : Heap :=
  hsetMap h r (mapSet (hget h r) k v)

/-- A Go `make(map[string]string, …)`: a fresh empty map, new reference. -/
def halloc (h : Heap) : Heap × Nat :=
  (h ++ [[]], h.length)

/-- The `for k, v := range src { dst[k] = v }` copy loop, writing through
`dst`.  (The loop body never writes `src`, so reading `src`'s entries once
up front is equivalent to ranging over the live map.) -/
def copyLoop (h : Heap) (src : ParamMap) (dst : Nat) : Heap :=
  src.foldl (fun hh kv => hwrite hh dst kv.1 kv.2) h

/-- `client.go` lines 253-259: `merged := make(…)`; copy loop from the
caller's map; `merged["apiKey"] = apiKey`.  Returns the heap after the
statements and the reference to `merged`. -/
def mergeParamsProg (h : Heap) (paramsRef : Nat) (apiKey : String) :
    Heap × Nat :=
  let alloc := halloc h
  let h2 := copyLoop alloc.1 (hget alloc.1 paramsRef) alloc.2
  (hwrite h2 alloc.2 "apiKey" apiKey, alloc.2)

/-- Pagination file lines 38-42 (`NewPageIterator`): `copied := make(…)`;
copy loop from the caller's map. -/
def copyParamsProg (h : Heap) (paramsRef : Nat) : Heap × Nat :=
  let alloc := halloc h
  (copyLoop alloc.1 (hget alloc.1 paramsRef) alloc.2, alloc.2)

/-- Pagination file lines 77-83 (`Next`): `params := make(…)`; copy loop
from `it.baseParams`; then `params["cursor"] = it.nextCursor` when a cursor
is set. -/
def nextParamsProg (h : Heap) (baseRef : Nat) (cursor : String) :
    Heap × Nat :=
  let alloc := halloc h
  let h2 := copyLoop alloc.1 (hget alloc.1 baseRef) alloc.2
  (if cursor ≠ "" then hwrite h2 alloc.2 "cursor" cursor else h2, alloc.2)

/-! ## Retry driver lemmas -/

/-- If the attempts starting at `start` are `k` retryable errors followed by
a success, and at least `k` further iterations are allowed, the loop stops
at the success, having run `k + 1` attempts. -/
theorem retryFrom_ok {α : Type} (outcomes : Nat → Except GoError α) (a : α) :
    ∀ (k start fuel : Nat), k ≤ fuel →
    (∀ i, i < k → retryableOutcome (outcomes (start + i)) = true) →
    outcomes (start + k) = .ok a →
    retryFrom outcomes start fuel = (.ok a, k + 1) := by
  intro k
  induction k with
  | zero =>
    intro start fuel _ _ hok
    rw [Nat.add_zero] at hok
    rw [retryFrom, hok]
  | succ k ih =>
    intro start fuel hk hretry hok
    have h0 : retryableOutcome (outcomes start) = true := by
      have h := hretry 0 (Nat.succ_pos k)
      rwa [Nat.add_zero] at h
    obtain ⟨e, he⟩ : ∃ e, outcomes start = .error e := by
      cases hcase : outcomes start with
      | ok b => rw [hcase] at h0; simp [retryableOutcome] at h0
      | error e => exact ⟨e, rfl⟩
    have hre : isRetryableError e = true := by
      rw [he] at h0; simpa [retryableOutcome] using h0
    obtain ⟨f, rfl⟩ : ∃ f, fuel = f + 1 := ⟨fuel - 1, by omega⟩
    have hrec := ih (start + 1) f (by omega)
      (fun i hi => by
        have h := hretry (i + 1) (by omega)
        rwa [show start + (i + 1) = start + 1 + i from by omega] at h)
      (by rwa [show start + 1 + k = start + (k + 1) from by omega])
    rw [retryFrom, he]
    simp [hre, hrec]

/-- If every allowed attempt fails with a retryable error, the loop exhausts
its budget and reports the last error, having run `fuel + 1` attempts. -/
theorem retryFrom_exhaust {α : Type} (outcomes : Nat → Except GoError α) (e : GoError) :
    ∀ (fuel start : Nat),
    (∀ i, i ≤ fuel → retryableOutcome (outcomes (start + i)) = true) →
    outcomes (start + fuel) = .error e →
    retryFrom outcomes start fuel = (.error e, fuel + 1) := by
  intro fuel
  induction fuel with
  | zero =>
    intro start hall hlast
    rw [Nat.add_zero] at hlast
    have h0 : retryableOutcome (outcomes start) = true := by
      have h := hall 0 (Nat.le_refl 0)
      rwa [Nat.add_zero] at h
    have hre : isRetryableError e = true := by
      rw [hlast] at h0; simpa [retryableOutcome] using h0
    rw [retryFrom, hlast]
    simp [hre]
  | succ f ih =>
    intro start hall hlast
    have h0 : retryableOutcome (outcomes start) = true := by
      have h := hall 0 (Nat.zero_le _)
      rwa [Nat.add_zero] at h
    obtain ⟨e0, he0⟩ : ∃ e0, outcomes start = .error e0 := by
      cases hcase : outcomes start with
      | ok b => rw [hcase] at h0; simp [retryableOutcome] at h0
      | error e0 => exact ⟨e0, rfl⟩
    have hre : isRetryableError e0 = true := by
      rw [he0] at h0; simpa [retryableOutcome] using h0
    have hrec := ih (start + 1)
      (fun i hi => by
        have h := hall (i + 1) (by omega)
        rwa [show start + (i + 1) = start + 1 + i from by omega] at h)
      (by rwa [show start + 1 + f = start + (f + 1) from by omega])
    rw [retryFrom, he0]
    simp [hre, hrec]

/-- C1: for every `maxRetries ≥ 0` and every sequence of `k ≤ maxRetries`
retryable errors followed by a success, `doWithRetry` returns the
successful result after exactly `k + 1` attempts, stopping at the first
success; and when all `maxRetries + 1` attempts fail with retryable errors
it returns the last observed error. -/
theorem doWithRetry_success_after_retryables :
    (∀ (α : Type) (maxRetries k : Nat) (outcomes : Nat → Except GoError α) (a : α),
      k ≤ maxRetries →
      (∀ i, i < k → retryableOutcome (outcomes i) = true) →
      outcomes k = .ok a →
      doWithRetry maxRetries outcomes = (.ok a, k + 1)) ∧
    (∀ (α : Type) (maxRetries : Nat) (outcomes : Nat → Except GoError α) (e : GoError),
      (∀ i, i ≤ maxRetries → retryableOutcome (outcomes i) = true) →
      outcomes maxRetries = .error e →
      doWithRetry maxRetries outcomes = (.error e, maxRetries + 1)) := by
  constructor
  · intro α maxRetries k outcomes a hk hr hok
    exact retryFrom_ok outcomes a k 0 maxRetries hk
      (fun i hi => by simpa using hr i hi) (by simpa using hok)
  · intro α maxRetries outcomes e hr hlast
    exact retryFrom_exhaust outcomes e maxRetries 0
      (fun i hi => by simpa using hr i hi) (by simpa using hlast)

theorem doWithRetry_success_after_retryables_witness :
    (doWithRetry 3 (fun i => if i < 2 then
        (.error (.apiError ⟨429, 88, "rate limit", ""⟩) : Except GoError Nat)
      else .ok 7) = (.ok 7, 3)) ∧
    (doWithRetry 1 (fun _ =>
        (.error (.apiError ⟨429, 88, "rate limit", ""⟩) : Except GoError Nat))
      = (.error (.apiError ⟨429, 88, "rate limit", ""⟩), 2)) := by
  constructor
  · exact doWithRetry_success_after_retryables.1 Nat 3 2 _ 7 (by decide)
      (fun i hi => by interval_cases i <;> decide) rfl
  · exact doWithRetry_success_after_retryables.2 Nat 1 _ _
      (fun i hi => by interval_cases i <;> decide) rfl

/-- C2: an attempt that fails with an error the classifier marks
non-retryable makes `doWithRetry` return that error after exactly one
attempt, whatever `maxRetries` is. -/
theorem doWithRetry_nonretryable_single_attempt :
    ∀ (α : Type) (maxRetries : Nat) (outcomes : Nat → Except GoError α) (e : GoError),
      outcomes 0 = .error e →
      isRetryableError e = false →
      doWithRetry maxRetries outcomes = (.error e, 1) := by
  intro α maxRetries outcomes e h0 hnr
  unfold doWithRetry
  rw [retryFrom, h0]
  simp [hnr]

theorem doWithRetry_nonretryable_single_attempt_witness :
    isRetryableError (.apiError ⟨401, 1, "unauthorized", ""⟩) = false ∧
    doWithRetry 5 (fun _ =>
        (.error (.apiError ⟨401, 1, "unauthorized", ""⟩) : Except GoError Nat))
      = (.error (.apiError ⟨401, 1, "unauthorized", ""⟩), 1) :=
  ⟨by decide,
   doWithRetry_nonretryable_single_attempt Nat 5 _ _ rfl (by decide)⟩

/-! ## Error classifier on HTTP 401 -/

/-- C3 counterexample: the claim "a 401 is never retryable regardless of
the body" is false.  A 401 response whose body carries business code 88
(the rate-limit code) produces an `APIError` the classifier marks
RETRYABLE, because `IsRetryable` tests `IsRateLimited` (`Code == 88`)
before any status check. -/
theorem api401_code88_retryable_cex :
    (buildNon2xxError 401
        (Json.render (.obj [("code", .num 88), ("msg", .str "rate limit")]))).StatusCode
      = 401 ∧
    isRetryableError (.apiError (buildNon2xxError 401
        (Json.render (.obj [("code", .num 88), ("msg", .str "rate limit")]))))
      = true := by
  constructor
  · rfl
  · rfl

/-- C3 amended: an `APIError` with HTTP status 401 is classified
non-retryable unless its body carried the rate-limit business code 88; in
particular the body's code decides, not the 401 alone. -/
theorem api401_nonretryable_unless_code88 :
    ∀ e : APIError, e.StatusCode = 401 → e.Code ≠ 88 →
      isRetryableError (.apiError e) = false := by
  intro e h401 h88
  simp [isRetryableError, GoError.isCtxErr, GoError.asAPIError,
    APIError.IsRetryable, APIError.IsRateLimited, APIError.IsForbidden, h401, h88]

theorem api401_nonretryable_unless_code88_witness :
    (1 : Int) ≠ 88 ∧
    isRetryableError (.apiError ⟨401, 1, "auth", "\x7b\"code\":1\x7d"⟩) = false :=
  ⟨by decide, api401_nonretryable_unless_code88 ⟨401, 1, "auth", "\x7b\"code\":1\x7d"⟩ rfl (by decide)⟩

/-! ## Backoff -/

/-- For attempts 1 through 34 the computed backoff matches the documented
`min(2^(n-1) s, 30 s)` formula (supporting fact for C9). -/
theorem backoffNs_eq_min_up_to_34 :
    ∀ n : Nat, 1 ≤ n → n ≤ 34 →
      backoffNs n = min ((2 : Int) ^ (n - 1) * 1000000000) (30 * 1000000000) := by
  intro n h1 h34
  interval_cases n <;> decide

/-- C9: the claimed backoff formula `min(2^(n-1) s, 30 s)` fails at attempt
`n = 35`: `time.Duration(2^34) * time.Second` overflows int64 to a negative
duration (so the 30-second cap comparison does not fire and the sleep is
immediate), where the claim requires 30 s. -/
theorem backoff_overflow_at_attempt_35 :
    backoffNs 35 = -1266874889709551616 ∧
    backoffNs 35 ≠ min ((2 : Int) ^ (35 - 1) * 1000000000) (30 * 1000000000) := by
  constructor
  · decide
  · decide

/-! ## Envelope unwrapping -/

/-- C4: a 2xx response whose body parses as an envelope with a nonzero
business code different from the success sentinel 1 yields an `APIError`
carrying that code and the envelope's `msg`, whatever the supplied result
decoder is — the quantification over `dec` is the statement that the
result destination is left undecoded: no decoding outcome can influence
the returned value. -/
theorem business_error_on_2xx :
    ∀ (α : Type) (status : Int) (body : String) (env : Envelope)
      (dec : String → Except String α),
      200 ≤ status → status < 300 →
      (jsonParse body).bind unmarshalEnvelope = some env →
      env.code ≠ 0 → env.code ≠ 1 →
      clientDo status body (some dec) =
        .error (.apiError ⟨status, env.code, env.msg, body⟩) := by
  intro α status body env dec h1 h2 henv hc0 hc1
  have hstat : ¬(status < 200 ∨ 300 ≤ status) := by omega
  simp only [clientDo, if_neg hstat, henv, if_pos (Or.inr hc0),
    if_pos (And.intro hc0 hc1)]

theorem business_error_on_2xx_witness :
    clientDo 200 (Json.render (.obj [("code", .num 99), ("msg", .str "boom")]))
        (some decGenericMap)
      = .error (.apiError ⟨200, 99, "boom",
          Json.render (.obj [("code", .num 99), ("msg", .str "boom")])⟩) :=
  business_error_on_2xx Json 200 _ ⟨99, none, "boom", none⟩ decGenericMap
    (by decide) (by decide) rfl (by decide) (by decide)

/-- C5: when the envelope's `data` field is a JSON-encoded string (its raw
bytes begin with a quote character), the unwrapper double-decodes: the
result handed to the destination is the decode of the INNER string. -/
theorem double_decode_on_string_data :
    ∀ (α : Type) (status : Int) (body : String) (env : Envelope) (s : String)
      (dec : String → Except String α) (a : α),
      200 ≤ status → status < 300 →
      (jsonParse body).bind unmarshalEnvelope = some env →
      (env.code = 0 ∨ env.code = 1) →
      env.data = some (.str s) →
      dec s = .ok a →
      clientDo status body (some dec) = .ok (some a) := by
  intro α status body env s dec a h1 h2 henv hcode hdata hdec
  have hstat : ¬(status < 200 ∨ 300 ≤ status) := by omega
  have hnotbiz : ¬(env.code ≠ 0 ∧ env.code ≠ 1) := by
    rcases hcode with h | h <;> simp [h]
  simp only [clientDo, if_neg hstat, henv, if_neg hnotbiz, hdata, hdec]
  simp

theorem double_decode_on_string_data_witness :
    clientDo 200 (Json.render (.obj [("code", .num 1),
        ("data", .str "\x7b\"hello\":\"world\"\x7d"), ("msg", .str "SUCCESS")]))
      (some decGenericMap)
      = .ok (some (.obj [("hello", .str "world")])) :=
  double_decode_on_string_data Json 200 _
    ⟨1, some (.str "\x7b\"hello\":\"world\"\x7d"), "SUCCESS", none⟩
    "\x7b\"hello\":\"world\"\x7d" decGenericMap (.obj [("hello", .str "world")])
    (by decide) (by decide) rfl (Or.inr rfl) rfl rfl

/-- C6: every decode failure at every stage of envelope unwrapping (inner
string decode, direct `data` decode, and whole-body fallback decode — with
or without a parsed envelope) surfaces as an error the classifier marks
non-retryable, whose message wraps the decoder's failure text together
with the offending payload passed through `Truncate _ 500`. -/
theorem decode_failure_nonretryable_truncated :
    (∀ (α : Type) (status : Int) (body : String) (env : Envelope) (s em : String)
       (dec : String → Except String α),
       200 ≤ status → status < 300 →
       (jsonParse body).bind unmarshalEnvelope = some env →
       (env.code = 0 ∨ env.code = 1) →
       env.data = some (.str s) →
       dec s = .error em →
       ∃ ge, clientDo status body (some dec) = .error ge ∧
         isRetryableError ge = false ∧
         ge.message = "utools: unmarshal inner data: " ++ em ++ " (data: "
           ++ Truncate s 500 ++ ")") ∧
    (∀ (α : Type) (status : Int) (body : String) (env : Envelope) (dj : Json)
       (em : String) (dec : String → Except String α),
       200 ≤ status → status < 300 →
       (jsonParse body).bind unmarshalEnvelope = some env →
       (env.code = 0 ∨ env.code = 1) →
       env.data = some dj →
       (∀ s, dj ≠ .str s) →
       dec dj.render = .error em →
       ∃ ge, clientDo status body (some dec) = .error ge ∧
         isRetryableError ge = false ∧
         ge.message = "utools: unmarshal data field: " ++ em ++ " (data: "
           ++ Truncate dj.render 500 ++ ")") ∧
    (∀ (α : Type) (status : Int) (body em : String)
       (dec : String → Except String α),
       200 ≤ status → status < 300 →
       (jsonParse body).bind unmarshalEnvelope = none →
       dec body = .error em →
       ∃ ge, clientDo status body (some dec) = .error ge ∧
         isRetryableError ge = false ∧
         ge.message = "utools: unmarshal response: " ++ em ++ " (body: "
           ++ Truncate body 500 ++ ")") ∧
    (∀ (α : Type) (status : Int) (body em : String) (env : Envelope)
       (dec : String → Except String α),
       200 ≤ status → status < 300 →
       (jsonParse body).bind unmarshalEnvelope = some env →
       env.data = none → env.code = 0 →
       dec body = .error em →
       ∃ ge, clientDo status body (some dec) = .error ge ∧
         isRetryableError ge = false ∧
         ge.message = "utools: unmarshal response: " ++ em ++ " (body: "
           ++ Truncate body 500 ++ ")") := by
  refine ⟨?_, ?_, ?_, ?_⟩
  · intro α status body env s em dec h1 h2 henv hcode hdata hdec
    have hstat : ¬(status < 200 ∨ 300 ≤ status) := by omega
    have hnotbiz : ¬(env.code ≠ 0 ∧ env.code ≠ 1) := by
      rcases hcode with h | h <;> simp [h]
    refine ⟨.wrapped ("utools: unmarshal inner data: " ++ em ++ " (data: "
      ++ Truncate s 500 ++ ")") (.decodeErr em), ?_, rfl, rfl⟩
    simp only [clientDo, if_neg hstat, henv, if_neg hnotbiz, hdata, hdec]
    simp
  · intro α status body env dj em dec h1 h2 henv hcode hdata hnstr hdec
    have hstat : ¬(status < 200 ∨ 300 ≤ status) := by omega
    have hnotbiz : ¬(env.code ≠ 0 ∧ env.code ≠ 1) := by
      rcases hcode with h | h <;> simp [h]
    refine ⟨.wrapped ("utools: unmarshal data field: " ++ em ++ " (data: "
      ++ Truncate dj.render 500 ++ ")") (.decodeErr em), ?_, rfl, rfl⟩
    cases dj with
    | str s => exact absurd rfl (hnstr s)
    | null =>
      simp only [clientDo, if_neg hstat, henv, if_neg hnotbiz, hdata,
        Envelope.rawData]
      rw [hdec]
      simp
    | bool b =>
      simp only [clientDo, if_neg hstat, henv, if_neg hnotbiz, hdata,
        Envelope.rawData]
      rw [hdec]
      simp
    | num n =>
      simp only [clientDo, if_neg hstat, henv, if_neg hnotbiz, hdata,
        Envelope.rawData]
      rw [hdec]
      simp
    | arr xs =>
      simp only [clientDo, if_neg hstat, henv, if_neg hnotbiz, hdata,
        Envelope.rawData]
      rw [hdec]
      simp
    | obj kvs =>
      simp only [clientDo, if_neg hstat, henv, if_neg hnotbiz, hdata,
        Envelope.rawData]
      rw [hdec]
      simp
  · intro α status body em dec h1 h2 henv hdec
    have hstat : ¬(status < 200 ∨ 300 ≤ status) := by omega
    refine ⟨.wrapped ("utools: unmarshal response: " ++ em ++ " (body: "
      ++ Truncate body 500 ++ ")") (.decodeErr em), ?_, rfl, rfl⟩
    simp only [clientDo, if_neg hstat, henv, hdec]
  · intro α status body em env dec h1 h2 henv hnone hcode hdec
    have hstat : ¬(status < 200 ∨ 300 ≤ status) := by omega
    have hno : ¬(env.data.isSome ∨ env.code ≠ 0) := by
      rw [hnone, hcode]; simp
    refine ⟨.wrapped ("utools: unmarshal response: " ++ em ++ " (body: "
      ++ Truncate body 500 ++ ")") (.decodeErr em), ?_, rfl, rfl⟩
    simp only [clientDo, if_neg hstat, henv, if_neg hno, hdec]

theorem decode_failure_nonretryable_truncated_witness :
    (∃ ge, clientDo 200 (Json.render (.obj [("code", .num 1),
          ("data", .str "not json"), ("msg", .str "")]))
        (some decGenericMap) = .error ge ∧
        isRetryableError ge = false ∧
        ge.message = "utools: unmarshal inner data: invalid JSON (data: "
          ++ Truncate "not json" 500 ++ ")") ∧
    (∃ ge, clientDo 200 (Json.render (.obj [("code", .num 1),
          ("data", .num 5), ("msg", .str "")]))
        (some decGenericMap) = .error ge ∧
        isRetryableError ge = false ∧
        ge.message = "utools: unmarshal data field: json: cannot unmarshal value into map (data: "
          ++ Truncate (Json.num 5).render 500 ++ ")") ∧
    (∃ ge, clientDo 200 "not json at all" (some decGenericMap) = .error ge ∧
        isRetryableError ge = false ∧
        ge.message = "utools: unmarshal response: invalid JSON (body: "
          ++ Truncate "not json at all" 500 ++ ")") ∧
    (∃ ge, clientDo 200 (Json.render (.obj [("msg", .str "hi")]))
        (some decSlice) = .error ge ∧
        isRetryableError ge = false ∧
        ge.message = "utools: unmarshal response: json: cannot unmarshal value into slice (body: "
          ++ Truncate (Json.obj [("msg", .str "hi")]).render 500 ++ ")") := by
  refine ⟨?_, ?_, ?_, ?_⟩
  · exact decode_failure_nonretryable_truncated.1 Json 200 _
      ⟨1, some (.str "not json"), "", none⟩ "not json" "invalid JSON"
      decGenericMap (by decide) (by decide) rfl (Or.inr rfl) rfl rfl
  · exact decode_failure_nonretryable_truncated.2.1 Json 200 _
      ⟨1, some (.num 5), "", none⟩ (.num 5) "json: cannot unmarshal value into map"
      decGenericMap (by decide) (by decide) rfl (Or.inr rfl) rfl
      (fun s h => Json.noConfusion h) rfl
  · exact decode_failure_nonretryable_truncated.2.2.1 Json 200
      "not json at all" "invalid JSON" decGenericMap
      (by decide) (by decide) rfl rfl
  · exact decode_failure_nonretryable_truncated.2.2.2 Json 200 _
      "json: cannot unmarshal value into slice" ⟨0, none, "hi", none⟩
      decSlice (by decide) (by decide) rfl rfl rfl rfl

/-! ## Cursor extraction from `entries` payloads -/

/-- A timeline cursor item as it appears inside an `entries` array, with
the cursor type and value in the `content.`-nested location. -/
def cursorEntry (t v : String) : Json :=
  .obj [("content", .obj [("cursorType", .str t), ("value", .str v)])]

/-- A payload whose `entries` array sits nested under `data`, as in the
upstream timeline responses. -/
def entriesPayload (ps : List (String × String)) : Json :=
  .obj [("data", .obj [("entries",
    .arr (ps.map (fun q => cursorEntry q.1 q.2)))])]

/-- The value of the first pair tagged `"Bottom"`. -/
def firstBottomValue : List (String × String) → String
  | [] => ""
  | q :: t => if q.1 = "Bottom" then q.2 else firstBottomValue t

/-- The value of the first pair tagged `"Top"`. -/
def firstTopValue : List (String × String) → String
  | [] => ""
  | q :: t => if q.1 = "Top" then q.2 else firstTopValue t

/-- One step of the deep scan on a cursor item: the `cursorType` guard is
read on the nested `content` object reached by recursion, and a direction
already set is left untouched. -/
theorem findCursorDeep_cursorEntry (t v : String) (st : String × String) :
    findCursorDeep (cursorEntry t v) st =
      ((if t = "Bottom" ∧ v ≠ "" ∧ st.1 = "" then v else st.1,
        if t = "Top" ∧ v ≠ "" ∧ st.2 = "" then v else st.2),
       decide ((if t = "Bottom" ∧ v ≠ "" ∧ st.1 = "" then v else st.1) = "" ∨
         (if t = "Top" ∧ v ≠ "" ∧ st.2 = "" then v else st.2) = "")) := by
  simp [cursorEntry, findCursorDeep, scanKvs, getField, gjsonStr]

/-- Scanning a list of cursor items threads the state left to right, with
first-match-wins writes in each direction (all values non-empty). -/
theorem scanList_cursorEntries (ps : List (String × String)) :
    ∀ st : String × String, (∀ q ∈ ps, q.2 ≠ "") →
      scanList (ps.map (fun q => cursorEntry q.1 q.2)) st =
        (if st.1 = "" then firstBottomValue ps else st.1,
         if st.2 = "" then firstTopValue ps else st.2) := by
  induction ps with
  | nil =>
    intro st _
    obtain ⟨n, p⟩ := st
    by_cases hn : n = "" <;> by_cases hp : p = "" <;>
      simp [scanList, firstBottomValue, firstTopValue, hn, hp]
  | cons q t ih =>
    intro st hall
    have hq : q.2 ≠ "" := hall q (List.mem_cons_self q t)
    have ht : ∀ r ∈ t, r.2 ≠ "" := fun r hr => hall r (List.mem_cons_of_mem q hr)
    obtain ⟨n, p⟩ := st
    simp only [List.map_cons, scanList, findCursorDeep_cursorEntry]
    by_cases hqb : q.1 = "Bottom" <;> by_cases hqt : q.1 = "Top" <;>
      by_cases hn : n = "" <;> by_cases hp : p = "" <;>
        simp [hqb, hqt, hn, hp, hq, ih _ ht, firstBottomValue, firstTopValue]

/-- `extractCursors` on an `entries` payload: the `..entries` lookup of
strategy 1 selects nothing (gjson's `..` prefix is its JSON-Lines mode),
the payload exposes no direct top-level cursor fields for strategy 2, and
the deep scan of strategy 3 finds the items in document order. -/
theorem extractCursors_entriesPayload (ps : List (String × String))
    (hall : ∀ q ∈ ps, q.2 ≠ "") :
    extractCursors (entriesPayload ps) = (firstBottomValue ps, firstTopValue ps) := by
  unfold extractCursors entriesPayload
  simp only [getDotDotEntries, getField, gjsonStr]
  simp [deepScanRoot, scanKvs, findCursorDeep, getField, gjsonStr,
    scanList_cursorEntries ps ("", "") hall]

/-- `find?` locates exactly the pair `firstBottomValue` reads. -/
theorem firstBottomValue_find? :
    ∀ (ps : List (String × String)) (q : String × String),
      ps.find? (fun r => r.1 = "Bottom") = some q → firstBottomValue ps = q.2 := by
  intro ps
  induction ps with
  | nil => intro q h; simp [List.find?] at h
  | cons r t ih =>
    intro q h
    by_cases hr : r.1 = "Bottom"
    · rw [List.find?_cons_of_pos _ (by simp [hr])] at h
      cases h
      simp [firstBottomValue, hr]
    · rw [List.find?_cons_of_neg _ (by simp [hr])] at h
      simp [firstBottomValue, hr, ih q h]

/-- `find?` locates exactly the pair `firstTopValue` reads. -/
theorem firstTopValue_find? :
    ∀ (ps : List (String × String)) (q : String × String),
      ps.find? (fun r => r.1 = "Top") = some q → firstTopValue ps = q.2 := by
  intro ps
  induction ps with
  | nil => intro q h; simp [List.find?] at h
  | cons r t ih =>
    intro q h
    by_cases hr : r.1 = "Top"
    · rw [List.find?_cons_of_pos _ (by simp [hr])] at h
      cases h
      simp [firstTopValue, hr]
    · rw [List.find?_cons_of_neg _ (by simp [hr])] at h
      simp [firstTopValue, hr, ih q h]

/-- C7: on a payload whose `entries` array carries more than one item with
cursor-type indicator `"Bottom"` (respectively `"Top"`), the FIRST matching
item's (non-empty) value is returned as the next (respectively previous)
cursor; a later match never overwrites an already-set value.  (In the
source this observable behaviour comes from the deep scan of strategy 3,
whose writes are guarded by `*next == ""` / `*prev == ""`; the strategy-1
`..entries` lookup never selects anything, gjson having no recursive
descent — its `..` prefix is the JSON-Lines mode.) -/
theorem entries_first_match_wins :
    (∀ (ps : List (String × String)) (qb : String × String),
      (∀ q ∈ ps, q.2 ≠ "") →
      ps.find? (fun q => q.1 = "Bottom") = some qb →
      2 ≤ (ps.filter (fun q => q.1 = "Bottom")).length →
      (extractCursors (entriesPayload ps)).1 = qb.2) ∧
    (∀ (ps : List (String × String)) (qt : String × String),
      (∀ q ∈ ps, q.2 ≠ "") →
      ps.find? (fun q => q.1 = "Top") = some qt →
      2 ≤ (ps.filter (fun q => q.1 = "Top")).length →
      (extractCursors (entriesPayload ps)).2 = qt.2) := by
  constructor
  · intro ps qb hall hfind _
    rw [extractCursors_entriesPayload ps hall]
    exact firstBottomValue_find? ps qb hfind
  · intro ps qt hall hfind _
    rw [extractCursors_entriesPayload ps hall]
    exact firstTopValue_find? ps qt hfind

theorem entries_first_match_wins_witness :
    (extractCursors (entriesPayload
      [("Top", "T1"), ("Bottom", "B1"), ("Top", "T2"), ("Bottom", "B2")])).1
      = "B1" ∧
    (extractCursors (entriesPayload
      [("Top", "T1"), ("Bottom", "B1"), ("Top", "T2"), ("Bottom", "B2")])).2
      = "T1" := by
  constructor
  · exact entries_first_match_wins.1
      [("Top", "T1"), ("Bottom", "B1"), ("Top", "T2"), ("Bottom", "B2")]
      ("Bottom", "B1") (by decide) (by decide) (by decide)
  · exact entries_first_match_wins.2
      [("Top", "T1"), ("Bottom", "B1"), ("Top", "T2"), ("Bottom", "B2")]
      ("Top", "T1") (by decide) (by decide) (by decide)

/-! ## Page iterator: stall detection and terminal absorption -/

/-- C8: (1) when a fetch succeeds but the extracted next cursor is empty or
equal to the cursor used for that request, the iterator's `hasMore` becomes
false — whether or not `maxPages` has been reached; (2) once `hasMore` is
false, `Next` returns an empty result with no error and an unchanged state,
performing no fetch — so `hasMore` can never become true again and every
subsequent `Next` behaves the same way. -/
theorem pageIterator_stall_and_terminal :
    (∀ (it : PageIterator) (fetch : ParamMap → Except GoError Json) (raw : Json),
      it.hasMore = true →
      ¬(it.maxPages > 0 ∧ it.pageCount ≥ it.maxPages) →
      fetch it.reqParams = .ok raw →
      ((extractCursors raw).1 = "" ∨ (extractCursors raw).1 = it.nextCursor) →
      ((it.next fetch).it).hasMore = false) ∧
    (∀ (it : PageIterator) (fetch : ParamMap → Except GoError Json),
      it.hasMore = false →
      it.next fetch = ⟨none, none, it, false⟩) := by
  constructor
  · intro it fetch raw hmore hpages hfetch hstall
    simp only [PageIterator.next, hmore, hfetch, if_neg hpages]
    simp only [Bool.true_eq_false, if_false, if_pos hstall]
  · intro it fetch hmore
    simp [PageIterator.next, hmore]

theorem pageIterator_stall_and_terminal_witness :
    (((⟨"/api/base/apitools/search", [("words", "q")], "cur", true, 1, 0⟩ :
        PageIterator).next
      (fun _ => .ok (.obj [("next_cursor", .str "cur")]))).it).hasMore = false ∧
    (⟨"/p", [], "c", false, 3, 0⟩ : PageIterator).next (fun _ => .ok .null)
      = ⟨none, none, ⟨"/p", [], "c", false, 3, 0⟩, false⟩ := by
  constructor
  · exact pageIterator_stall_and_terminal.1
      ⟨"/api/base/apitools/search", [("words", "q")], "cur", true, 1, 0⟩
      (fun _ => .ok (.obj [("next_cursor", .str "cur")]))
      (.obj [("next_cursor", .str "cur")])
      rfl (by decide) rfl (Or.inr rfl)
  · exact pageIterator_stall_and_terminal.2
      ⟨"/p", [], "c", false, 3, 0⟩ (fun _ => .ok .null) rfl

/-! ## Heap lemmas: the caller's map is never written -/

theorem hget_append_lt (x : ParamMap) :
    ∀ (h : Heap) (r : Nat), r < h.length → hget (h ++ [x]) r = hget h r := by
  intro h
  induction h with
  | nil => intro r hr; simp at hr
  | cons m t ih =>
    intro r hr
    cases r with
    | zero => rfl
    | succ r' => exact ih r' (by simpa using hr)

theorem hget_hsetMap_ne (m : ParamMap) :
    ∀ (h : Heap) (s r : Nat), r ≠ s → hget (hsetMap h s m) r = hget h r := by
  intro h
  induction h with
  | nil => intro s r _; simp [hsetMap]
  | cons x t ih =>
    intro s r hne
    cases s with
    | zero =>
      cases r with
      | zero => exact absurd rfl hne
      | succ r' => rfl
    | succ s' =>
      cases r with
      | zero => rfl
      | succ r' => exact ih s' r' (fun hh => hne (by rw [hh]))

theorem hget_hwrite_ne (h : Heap) (s r : Nat) (k v : String) (hne : r ≠ s) :
    hget (hwrite h s k v) r = hget h r :=
  hget_hsetMap_ne _ h s r hne

theorem hget_copyLoop_ne (dst r : Nat) (hne : r ≠ dst) :
    ∀ (src : ParamMap) (h : Heap), hget (copyLoop h src dst) r = hget h r := by
  intro src
  induction src with
  | nil => intro h; rfl
  | cons kv t ih =>
    intro h
    unfold copyLoop
    rw [List.foldl_cons]
    have step := ih (hwrite h dst kv.1 kv.2)
    unfold copyLoop at step
    rw [step, hget_hwrite_ne h dst r kv.1 kv.2 hne]

/-- C10: none of the three map-building code paths — `do`/`doRaw`'s
parameter merge (injecting the API key), `NewPageIterator`'s base-parameter
copy, and `Next`'s per-request parameter build (injecting the cursor) —
writes through the caller's map reference: after each program the caller's
map holds exactly its original entries.  (Each program allocates a fresh
map and performs all its writes through the fresh reference.) -/
theorem caller_params_not_mutated :
    ∀ (h : Heap) (r : Nat), r < h.length →
      (∀ apiKey, hget (mergeParamsProg h r apiKey).1 r = hget h r) ∧
      (hget (copyParamsProg h r).1 r = hget h r) ∧
      (∀ cursor, hget (nextParamsProg h r cursor).1 r = hget h r) := by
  intro h r hr
  have hne : r ≠ h.length := by omega
  refine ⟨?_, ?_, ?_⟩
  · intro apiKey
    simp only [mergeParamsProg, halloc]
    rw [hget_hwrite_ne _ _ _ _ _ hne, hget_copyLoop_ne _ _ hne,
      hget_append_lt _ h r hr]
  · simp only [copyParamsProg, halloc]
    rw [hget_copyLoop_ne _ _ hne, hget_append_lt _ h r hr]
  · intro cursor
    simp only [nextParamsProg, halloc]
    by_cases hc : cursor ≠ ""
    · rw [if_pos hc, hget_hwrite_ne _ _ _ _ _ hne, hget_copyLoop_ne _ _ hne,
        hget_append_lt _ h r hr]
    · rw [if_neg hc, hget_copyLoop_ne _ _ hne, hget_append_lt _ h r hr]

theorem caller_params_not_mutated_witness :
    (0 : Nat) < ([[("a", "1")]] : Heap).length ∧
    hget (mergeParamsProg [[("a", "1")]] 0 "key").1 0 = [("a", "1")] ∧
    hget (copyParamsProg [[("a", "1")]] 0).1 0 = [("a", "1")] ∧
    hget (nextParamsProg [[("a", "1")]] 0 "cur").1 0 = [("a", "1")] := by
  refine ⟨by decide, ?_, ?_, ?_⟩
  · exact ((caller_params_not_mutated [[("a", "1")]] 0 (by decide)).1 "key").trans rfl
  · exact ((caller_params_not_mutated [[("a", "1")]] 0 (by decide)).2.1).trans rfl
  · exact ((caller_params_not_mutated [[("a", "1")]] 0 (by decide)).2.2 "cur").trans rfl

end XCatch
